import Mathlib

/-!
Verification of the lightbaseERMGateway laboratory-protocol gateway.

The Go source (src/main.go) contains three kinds of components that the
claims talk about:

* byte-level framers: the MLLP (HL7) framer of `handleConnection` /
  `StartHL7Listener`, and the ASTM framer of `StartASTMListener` /
  `StartCombinedListener`;
* message parsers: `parseHL7`, `parseASTM`, with the field accessors
  `getHL7Field`, `getASTMField`, the component accessor
  `parseHL7Component` and the timestamp normaliser `parseHL7DateTime`;
* the acknowledgment generator `generateHL7ACK`.

Every definition below is a direct transcription of the corresponding Go
function.  Go strings are modelled as Lean `String`s; the `strings`
package functions the source calls (`Split`, `TrimSpace`, `ReplaceAll`,
`HasPrefix`) are transcribed as the executable `goSplit`, `goTrim`,
`goReplaceCRLF`, `goHasPrefix` below; raw wire bytes are modelled as
`Nat`; calls to `time.Now()` are modelled by threading the formatted
current-time string as an explicit `now` parameter.
-/

namespace Gateway

/-! ### Control characters (src/main.go, const block) -/

abbrev Byte := Nat

def VT  : Byte := 0x0B
def FS  : Byte := 0x1C
def CR  : Byte := 0x0D
def LF  : Byte := 0x0A
def ENQ : Byte := 0x05
def ACK : Byte := 0x06
def NAK : Byte := 0x15
def EOT : Byte := 0x04
def STX : Byte := 0x02
def ETX : Byte := 0x03
def ETB : Byte := 0x17

/-! ### Generic byte-at-a-time driver

Both Go listeners read a chunk from the transport and then run
`for _, b := range readBuffer[:n] { switch b { ... } }`, i.e. every byte
is pushed through a per-byte step function that updates the framer state
and possibly emits outputs.  `feedBytes` is that per-byte loop;
`feedChunks` is the outer read loop that processes one received chunk
after another. -/

def feedBytes {σ α : Type} (step : σ → Byte → σ × List α) :
    σ → List Byte → σ × List α
  | s, [] => (s, [])
  | s, b :: bs =>
    let p := step s b
    let q := feedBytes step p.1 bs
    (q.1, p.2 ++ q.2)

def feedChunks {σ α : Type} (step : σ → Byte → σ × List α) :
    σ → List (List Byte) → σ × List α
  | s, [] => (s, [])
  | s, c :: cs =>
    let p := feedBytes step s c
    let q := feedChunks step p.1 cs
    (q.1, p.2 ++ q.2)

/-! ### MLLP framer (src/main.go `handleConnection`, lines 109-162)

State: the `inMessage` flag and the accumulating `messageBuffer`.
`VT` starts a message and resets the buffer; `FS` (while in a message)
emits the buffer as a completed message and resets; `CR` is appended
while in a message; `LF` is always ignored; any other byte is appended
while in a message and discarded otherwise. -/

structure MllpState where
  inMessage : Bool
  buffer : List Byte
deriving DecidableEq, Repr

def mllpInit : MllpState := ⟨false, []⟩

def mllpStep (s : MllpState) (b : Byte) : MllpState × List (List Byte) :=
  if b = VT then (⟨true, []⟩, [])
  else if b = FS then
    if s.inMessage then (⟨false, []⟩, [s.buffer]) else (s, [])
  else if b = CR then
    if s.inMessage then (⟨s.inMessage, s.buffer ++ [b]⟩, []) else (s, [])
  else if b = LF then (s, [])
  else
    if s.inMessage then (⟨s.inMessage, s.buffer ++ [b]⟩, []) else (s, [])

def mllpFeed : MllpState → List Byte → MllpState × List (List Byte) :=
  feedBytes mllpStep

def mllpFeedChunks : MllpState → List (List Byte) → MllpState × List (List Byte) :=
  feedChunks mllpStep

/-! ### ASTM framer (src/main.go `StartASTMListener`, lines 1128-1147;
the ASTM branch of `StartCombinedListener`, lines 1074-1091, is the same
switch)

The Go loop keeps only the `frameBuffer`; there is no mode flag.
`ENQ` answers with an ACK byte; `STX` resets the buffer; `ETX`/`ETB`
answer with an ACK byte and emit the buffer as a completed frame
(without resetting it); `EOT` only logs; every other byte (including
`CR`) is appended to the buffer unconditionally. -/

inductive AstmOut where
  | sendAck
  | completedFrame (payload : List Byte)
deriving DecidableEq, Repr

def astmStep (buf : List Byte) (b : Byte) : List Byte × List AstmOut :=
  if b = ENQ then (buf, [.sendAck])
  else if b = STX then ([], [])
  else if b = ETX ∨ b = ETB then (buf, [.sendAck, .completedFrame buf])
  else if b = EOT then (buf, [])
  else (buf ++ [b], [])

def astmFeed : List Byte → List Byte → List Byte × List AstmOut :=
  feedBytes astmStep

def astmFeedChunks : List Byte → List (List Byte) → List Byte × List AstmOut :=
  feedChunks astmStep

/-- The completed-frame payloads among the emitted ASTM outputs. -/
def astmPayloads (outs : List AstmOut) : List (List Byte) :=
  outs.filterMap fun o =>
    match o with
    | .completedFrame p => some p
    | .sendAck => none

/-! ### Observation and Result records (src/main.go `parseHL7` lines
223-271, `parseASTM` lines 1163-1199)

The Go code builds `map[string]interface{}` values with fixed string
keys; each is modelled as a structure with one `String` field per key. -/

structure Observation where
  patient_id : String
  patient_name : String
  accession_number : String
  message_id : String
  observation_id : String
  value_type : String
  test_code : String
  test_name : String
  value : String
  units : String
  reference_range : String
  abnormal_flags : String
  result_status : String
  timestamp : String
deriving DecidableEq, Repr

structure AstmResult where
  protocol : String
  patient_id : String
  sample_id : String
  test_code : String
  value : String
  units : String
  flags : String
  timestamp : String
deriving DecidableEq, Repr

/-! ### The Go string primitives used by the source

Lean's built-in `String.trim`, `String.splitOn`, `String.replace` are
implemented with byte-position arithmetic that the kernel cannot
evaluate, so the `strings`-package functions the source calls are
transcribed here as structural recursions on the character list, with
`String` wrappers.  `isGoSpace` is Go's `unicode.IsSpace` restricted to
the Latin-1 range (the only characters `strings.TrimSpace` strips from
instrument traffic). -/

def isGoSpace (c : Char) : Bool :=
  c = ' ' ∨ c = '\t' ∨ c = '\n' ∨ c = '\u000B' ∨ c = '\u000C' ∨ c = '\r'
    ∨ c = '\u0085' ∨ c = '\u00A0'

def goTrimChars (cs : List Char) : List Char :=
  ((cs.dropWhile isGoSpace).reverse.dropWhile isGoSpace).reverse

/-- Go `strings.TrimSpace`. -/
def goTrim (s : String) : String := ⟨goTrimChars s.data⟩

def splitOnChar (sep : Char) : List Char → List (List Char)
  | [] => [[]]
  | c :: rest =>
    match splitOnChar sep rest with
    | [] => [[]]
    | h :: t => if c = sep then [] :: h :: t else (c :: h) :: t

/-- Go `strings.Split s (string sep)` / `bytes.Split` for a one-byte
separator: `n` separators yield `n+1` pieces, `""` yields `[""]`. -/
def goSplit (s : String) (sep : Char) : List String :=
  (splitOnChar sep s.data).map fun cs => ⟨cs⟩

def replaceCRLFChars : List Char → List Char
  | [] => []
  | '\r' :: '\n' :: rest => '\r' :: replaceCRLFChars rest
  | c :: rest => c :: replaceCRLFChars rest

/-- Go `strings.ReplaceAll s "\r\n" "\r"` (the only `ReplaceAll` call in
the source): non-overlapping left-to-right replacement. -/
def goReplaceCRLF (s : String) : String := ⟨replaceCRLFChars s.data⟩

def hasPrefixChars : List Char → List Char → Bool
  | _, [] => true
  | [], _ :: _ => false
  | c :: cs, p :: ps => c = p && hasPrefixChars cs ps

/-- Go `strings.HasPrefix s p`. -/
def goHasPrefix (s p : String) : Bool := hasPrefixChars s.data p.data

/-- Go byte-slicing `s[:n]` (ASCII data, so bytes coincide with chars). -/
def goTake (s : String) (n : Nat) : String := ⟨s.data.take n⟩

/-- Go `len s` (ASCII data, so bytes coincide with chars). -/
def goLength (s : String) : Nat := s.data.length

/-- src/main.go lines 273-278: `getHL7Field` returns `""` when the index
is out of range, and `strings.TrimSpace(fields[index])` otherwise. -/
def getHL7Field (fields : List String) (index : Nat) : String :=
  if index ≥ fields.length then "" else goTrim (fields.getD index "")

/-- src/main.go lines 280-286: split the field on `^` and return the
trimmed component, or `""` out of range. -/
def parseHL7Component (field : String) (componentIndex : Nat) : String :=
  if componentIndex ≥ (goSplit field '^').length then ""
  else goTrim ((goSplit field '^').getD componentIndex "")

/-- src/main.go lines 1201-1206: `getASTMField` returns `""` when the
index is out of range, and `fields[index]` (untrimmed) otherwise. -/
def getASTMField (fields : List String) (index : Nat) : String :=
  if index ≥ fields.length then "" else fields.getD index ""

/-! ### Model of Go `time.Parse` on the layouts `"20060102150405"` and
`"20060102"`, and of `Format(time.RFC3339)` (used by `parseHL7DateTime`,
src/main.go lines 288-309)

`time.Parse` on these layouts reads fixed-width numeric fields: the
4-character year is read by the time package's `atoi`, which accepts a
leading sign, while the 2-character month/day/hour/minute/second fields
require exactly two digits.  After reading, `Parse` range-checks: month
1-12, day 1 to the length of that month (observing leap years), hour
0-23, minute and second 0-59.  On success the parsed time carries the
UTC zone, so `Format(time.RFC3339)` prints `YYYY-MM-DDThh:mm:ssZ`. -/

def digit2 (c₁ c₂ : Char) : Option Nat :=
  if c₁.isDigit ∧ c₂.isDigit then
    some ((c₁.toNat - 48) * 10 + (c₂.toNat - 48))
  else none

def year4 (c₀ c₁ c₂ c₃ : Char) : Option Int :=
  if c₀ = '-' ∨ c₀ = '+' then
    if c₁.isDigit ∧ c₂.isDigit ∧ c₃.isDigit then
      some (if c₀ = '-' then
        -(((c₁.toNat - 48) * 100 + (c₂.toNat - 48) * 10 + (c₃.toNat - 48) : Nat) : Int)
      else (((c₁.toNat - 48) * 100 + (c₂.toNat - 48) * 10 + (c₃.toNat - 48) : Nat) : Int))
    else none
  else
    if c₀.isDigit ∧ c₁.isDigit ∧ c₂.isDigit ∧ c₃.isDigit then
      some (((c₀.toNat - 48) * 1000 + (c₁.toNat - 48) * 100
        + (c₂.toNat - 48) * 10 + (c₃.toNat - 48) : Nat) : Int)
    else none

def isLeapYear (y : Int) : Bool :=
  y % 4 == 0 && (y % 100 != 0 || y % 400 == 0)

def daysIn (month : Nat) (y : Int) : Nat :=
  if month = 2 then (if isLeapYear y then 29 else 28)
  else if month = 4 ∨ month = 6 ∨ month = 9 ∨ month = 11 then 30
  else 31

structure GoTime where
  year : Int
  month : Nat
  day : Nat
  hour : Nat
  minute : Nat
  second : Nat
deriving DecidableEq, Repr

def goTimeValid (t : GoTime) : Bool :=
  decide (1 ≤ t.month ∧ t.month ≤ 12 ∧ 1 ≤ t.day ∧ t.day ≤ daysIn t.month t.year
    ∧ t.hour ≤ 23 ∧ t.minute ≤ 59 ∧ t.second ≤ 59)

/-- Go `time.Parse("20060102150405", s)` on a 14-character value. -/
def goParseFull (s : String) : Option GoTime :=
  match s.data with
  | [y₀, y₁, y₂, y₃, mo₀, mo₁, d₀, d₁, h₀, h₁, mi₀, mi₁, s₀, s₁] =>
    match year4 y₀ y₁ y₂ y₃, digit2 mo₀ mo₁, digit2 d₀ d₁,
        digit2 h₀ h₁, digit2 mi₀ mi₁, digit2 s₀ s₁ with
    | some y, some mo, some d, some h, some mi, some sec =>
      if goTimeValid ⟨y, mo, d, h, mi, sec⟩ then some ⟨y, mo, d, h, mi, sec⟩ else none
    | _, _, _, _, _, _ => none
  | _ => none

/-- Go `time.Parse("20060102", s)` on an 8-character value. -/
def goParseDate (s : String) : Option GoTime :=
  match s.data with
  | [y₀, y₁, y₂, y₃, mo₀, mo₁, d₀, d₁] =>
    match year4 y₀ y₁ y₂ y₃, digit2 mo₀ mo₁, digit2 d₀ d₁ with
    | some y, some mo, some d =>
      if goTimeValid ⟨y, mo, d, 0, 0, 0⟩ then some ⟨y, mo, d, 0, 0, 0⟩ else none
    | _, _, _ => none
  | _ => none

def digitChar (n : Nat) : Char := Char.ofNat (48 + n)

/-- Two-digit zero-padded decimal (all formatted values are ≤ 59). -/
def pad2 (n : Nat) : String :=
  ⟨[digitChar (n / 10 % 10), digitChar (n % 10)]⟩

/-- Four-digit zero-padded decimal (parsed years are ≤ 9999). -/
def pad4 (n : Nat) : String :=
  ⟨[digitChar (n / 1000 % 10), digitChar (n / 100 % 10),
    digitChar (n / 10 % 10), digitChar (n % 10)]⟩

def yearString (y : Int) : String :=
  if y < 0 then "-" ++ pad4 y.natAbs else pad4 y.toNat

/-- `t.Format(time.RFC3339)` for a `time.Parse` result (UTC zone). -/
def formatRFC3339 (t : GoTime) : String :=
  yearString t.year ++ "-" ++ pad2 t.month ++ "-" ++ pad2 t.day ++ "T"
    ++ pad2 t.hour ++ ":" ++ pad2 t.minute ++ ":" ++ pad2 t.second ++ "Z"

/-- src/main.go lines 288-309 (`parseHL7DateTime`): trim; fewer than 8
characters → `time.Now()` (the `now` parameter); otherwise, when at
least 14 characters, try the full layout on the first 14 and return its
reformatting on success; otherwise try the date layout on the first 8;
otherwise `time.Now()`. -/
def parseHL7DateTime (now : String) (hl7DateTime : String) : String :=
  if goLength (goTrim hl7DateTime) < 8 then now
  else if 14 ≤ goLength (goTrim hl7DateTime) then
    match goParseFull (goTake (goTrim hl7DateTime) 14) with
    | some t => formatRFC3339 t
    | none =>
      match goParseDate (goTake (goTrim hl7DateTime) 8) with
      | some t => formatRFC3339 t
      | none => now
  else
    match goParseDate (goTake (goTrim hl7DateTime) 8) with
    | some t => formatRFC3339 t
    | none => now

/-! ### HL7 message parser (src/main.go `parseHL7`, lines 223-271) -/

structure HL7Ctx where
  patientID : String
  patientName : String
  accessionNumber : String
  messageControlID : String
deriving DecidableEq, Repr

/-- One iteration of the `parseHL7` segment loop: trim the segment, skip
it when empty, split on `|`, dispatch on the segment type. -/
def hl7Step (now : String) (ctx : HL7Ctx) (segment : String) :
    HL7Ctx × List Observation :=
  if goTrim segment = "" then (ctx, [])
  else
    let fields := goSplit (goTrim segment) '|'
    let segmentType := fields.headD ""
    if segmentType = "MSH" then
      ({ ctx with messageControlID := getHL7Field fields 9 }, [])
    else if segmentType = "PID" then
      ({ ctx with patientID := getHL7Field fields 3,
                  patientName := getHL7Field fields 5 }, [])
    else if segmentType = "OBR" then
      ({ ctx with accessionNumber := getHL7Field fields 2 }, [])
    else if segmentType = "OBX" then
      (ctx,
        [{ patient_id := ctx.patientID
           patient_name := ctx.patientName
           accession_number := ctx.accessionNumber
           message_id := ctx.messageControlID
           observation_id := getHL7Field fields 1
           value_type := getHL7Field fields 2
           test_code := parseHL7Component (getHL7Field fields 3) 0
           test_name := parseHL7Component (getHL7Field fields 3) 1
           value := getHL7Field fields 5
           units := getHL7Field fields 6
           reference_range := getHL7Field fields 7
           abnormal_flags := getHL7Field fields 8
           result_status := getHL7Field fields 11
           timestamp := parseHL7DateTime now (getHL7Field fields 14) }])
    else (ctx, [])

def hl7Run (now : String) : HL7Ctx → List String → HL7Ctx × List Observation
  | ctx, [] => (ctx, [])
  | ctx, seg :: rest =>
    let p := hl7Step now ctx seg
    let q := hl7Run now p.1 rest
    (q.1, p.2 ++ q.2)

/-- src/main.go `parseHL7`: normalise CRLF to CR, split into segments,
run the segment loop from empty context. -/
def parseHL7 (now message : String) : List Observation :=
  (hl7Run now ⟨"", "", "", ""⟩ (goSplit (goReplaceCRLF message) '\r')).2

/-! ### ASTM frame parser (src/main.go `parseASTM`, lines 1163-1199) -/

structure AstmCtx where
  patientID : String
  sampleID : String
deriving DecidableEq, Repr

/-- One iteration of the `parseASTM` record loop: skip empty lines
(no trimming here), split on `|`, dispatch on the record type. -/
def astmParseStep (now : String) (ctx : AstmCtx) (line : String) :
    AstmCtx × List AstmResult :=
  if line = "" then (ctx, [])
  else
    let fields := goSplit line '|'
    let recordType := fields.headD ""
    if recordType = "P" then ({ ctx with patientID := getASTMField fields 2 }, [])
    else if recordType = "O" then ({ ctx with sampleID := getASTMField fields 2 }, [])
    else if recordType = "R" then
      (ctx,
        [{ protocol := "ASTM"
           patient_id := ctx.patientID
           sample_id := ctx.sampleID
           test_code := getASTMField fields 2
           value := getASTMField fields 3
           units := getASTMField fields 4
           flags := getASTMField fields 6
           timestamp := now }])
    else (ctx, [])

def astmRun (now : String) : AstmCtx → List String → AstmCtx × List AstmResult
  | ctx, [] => (ctx, [])
  | ctx, line :: rest =>
    let p := astmParseStep now ctx line
    let q := astmRun now p.1 rest
    (q.1, p.2 ++ q.2)

/-- src/main.go `parseASTM`: split the frame on CR and run the record
loop from empty context.  The `timestamp` of every emitted result is
`time.Now().Format(time.RFC3339)`, modelled by the `now` parameter. -/
def parseASTM (now data : String) : List AstmResult :=
  (astmRun now ⟨"", ""⟩ (goSplit data '\r')).2

/-! ### HL7 ACK generation (src/main.go `generateHL7ACK`, lines 311-364) -/

/-- The loop at lines 316-322: the first segment whose trimmed text
starts with `"MSH"`, trimmed and split on `|`; Go leaves `mshFields` as
the nil slice (length 0) when no such segment exists. -/
def findMSHFields (segments : List String) : List String :=
  match segments.find? (fun seg => goHasPrefix (goTrim seg) "MSH") with
  | some seg => goSplit (goTrim seg) '|'
  | none => []

/-- src/main.go `generateHL7ACK`.  The MSH line is produced by
`fmt.Sprintf("MSH%s%s%s%s%s%s%s%s%s%sACK%s%s%sAL%s", ...)` with
**fifteen** arguments for its fourteen `%s` verbs: the first ten verbs
consume separator/encoding/receivingApp/separator/receivingFacility/
separator/sendingApp/separator/sendingFacility, so `ACK` is glued
directly onto the sending-facility value; the next three consume
separator, timestamp, separator; the one after `AL` consumes a
separator; and Go appends `%!(EXTRA string=|)` for the unconsumed
fifteenth argument.  The transcription reproduces that output exactly. -/
def generateHL7ACK (now originalMessage : String) : String :=
  let segments := goSplit (goReplaceCRLF originalMessage) '\r'
  let mshFields := findMSHFields segments
  if mshFields.length < 10 then ""
  else
    let fieldSeparator := "|"
    let encodingChars := getHL7Field mshFields 1
    let sendingApp := getHL7Field mshFields 2
    let sendingFacility := getHL7Field mshFields 3
    let receivingApp := getHL7Field mshFields 4
    let receivingFacility := getHL7Field mshFields 5
    let messageControlID := getHL7Field mshFields 9
    "MSH" ++ fieldSeparator ++ encodingChars ++ fieldSeparator ++ receivingApp
      ++ fieldSeparator ++ receivingFacility ++ fieldSeparator ++ sendingApp
      ++ fieldSeparator ++ sendingFacility ++ "ACK" ++ fieldSeparator ++ now
      ++ fieldSeparator ++ "AL" ++ fieldSeparator ++ "%!(EXTRA string=|)"
      ++ "\r" ++ "MSA" ++ fieldSeparator ++ "AA" ++ fieldSeparator ++ messageControlID


/-! ### Auxiliary definitions for the claims -/

/-- Modelled from the spec's words (§4.3 timestamp policy, claim C5), to
be compared with the source transcription `parseHL7DateTime`: after
trimming, fewer than 8 characters → current time; else if the input has
at least 14 characters and its first 14 parse under the full layout →
that instant reformatted; otherwise if the first 8 characters parse as a
date → that date reformatted; otherwise current time. -/
def hl7DateTimePolicy (now s : String) : String :=
  if goLength (goTrim s) < 8 then now
  else
    match (if 14 ≤ goLength (goTrim s) then goParseFull (goTake (goTrim s) 14) else none),
        goParseDate (goTake (goTrim s) 8) with
    | some t, _ => formatRFC3339 t
    | none, some t => formatRFC3339 t
    | none, none => now

/-- An Observation with its `timestamp` field blanked; used to state
which part of `parseHL7`'s output is independent of the wall clock. -/
def obsEraseTimestamp (o : Observation) : Observation := { o with timestamp := "" }

/-- `true` exactly when `parseHL7DateTime` ignores its input and returns
the current wall-clock time. -/
def hl7TimestampFallsBack (s : String) : Bool :=
  if goLength (goTrim s) < 8 then true
  else if 14 ≤ goLength (goTrim s) then
    match goParseFull (goTake (goTrim s) 14) with
    | some _ => false
    | none => (goParseDate (goTake (goTrim s) 8)).isNone
  else (goParseDate (goTake (goTrim s) 8)).isNone

/-- The HL7 message of claim C3 (segments joined by CR). -/
def c3msg : String :=
  "MSH|...\rPID|1||12345||DOE^JOHN\rOBR|1||54321|...\rOBX|1|NM|GLU^Glucose||5.6|mmol/L|...\rOBX|2|NM|NA^Sodium||140|mmol/L|..."

/-- The ASTM frame of claim C4 (records joined and terminated by CR). -/
def c4frame : String := "P|1||P100\rO|1|S200\rR|1|GLU|5.6|mmol/L||N\r"

/-! ### Chunk-invariance lemmas -/

theorem feedBytes_append {σ α : Type} (step : σ → Byte → σ × List α)
    (xs ys : List Byte) (s : σ) :
    feedBytes step s (xs ++ ys) =
      ((feedBytes step (feedBytes step s xs).1 ys).1,
        (feedBytes step s xs).2 ++ (feedBytes step (feedBytes step s xs).1 ys).2) := by
  induction xs generalizing s with
  | nil => simp [feedBytes]
  | cons b bs ih =>
    simp only [List.cons_append, feedBytes, List.append_eq, ih, List.append_assoc]

theorem feedChunks_join {σ α : Type} (step : σ → Byte → σ × List α)
    (cs : List (List Byte)) (s : σ) :
    feedChunks step s cs = feedBytes step s cs.flatten := by
  induction cs generalizing s with
  | nil => simp [feedBytes, feedChunks]
  | cons c cs ih =>
    simp only [feedChunks, ih, List.flatten, feedBytes_append]

theorem singleton_chunks_join (xs : List Byte) :
    (xs.map fun b => [b]).flatten = xs := by
  induction xs with
  | nil => simp
  | cons b bs ih => simp [ih]

theorem astmFeed_cons (buf : List Byte) (b : Byte) (bs : List Byte) :
    astmFeed buf (b :: bs) =
      ((astmFeed (astmStep buf b).1 bs).1,
        (astmStep buf b).2 ++ (astmFeed (astmStep buf b).1 bs).2) := rfl

theorem astmPayloads_append (o₁ o₂ : List AstmOut) :
    astmPayloads (o₁ ++ o₂) = astmPayloads o₁ ++ astmPayloads o₂ := by
  simp [astmPayloads, List.filterMap_append]

/-- Invariant of the ASTM framer on any byte run containing no `STX`:
the buffer only ever grows, every emitted frame payload extends the
starting buffer, and the emitted payloads form a chain under the
list-prefix order. -/
theorem astm_no_stx_invariant (xs : List Byte) :
    ∀ buf : List Byte, STX ∉ xs →
      (∀ f ∈ astmPayloads (astmFeed buf xs).2, buf <+: f)
      ∧ List.Pairwise (· <+: ·) (astmPayloads (astmFeed buf xs).2)
      ∧ buf <+: (astmFeed buf xs).1 := by
  induction xs with
  | nil =>
    intro buf _
    refine ⟨by simp [astmFeed, feedBytes, astmPayloads], ?_, List.prefix_refl buf⟩
    simp [astmFeed, feedBytes, astmPayloads]
  | cons b bs ih =>
    intro buf hstx
    have hb : b ≠ STX := fun h => hstx (h ▸ List.mem_cons_self b bs)
    have hbs : STX ∉ bs := fun h => hstx (List.mem_cons_of_mem b h)
    rw [astmFeed_cons, astmPayloads_append]
    by_cases hENQ : b = ENQ
    · have hstep : astmStep buf b = (buf, [.sendAck]) := by simp [astmStep, hENQ, ENQ]
      rw [hstep]
      have h := ih buf hbs
      refine ⟨?_, ?_, h.2.2⟩
      · intro f hf
        simp only [astmPayloads, List.filterMap] at hf
        exact h.1 f (by simpa [astmPayloads] using hf)
      · simpa [astmPayloads] using h.2.1
    · by_cases hETXB : b = ETX ∨ b = ETB
      · have hstep : astmStep buf b = (buf, [.sendAck, .completedFrame buf]) := by
          rcases hETXB with h | h <;>
            simp [astmStep, h, ETX, ETB, ENQ, STX]
        rw [hstep]
        have h := ih buf hbs
        have hpay : astmPayloads [AstmOut.sendAck, AstmOut.completedFrame buf] = [buf] := by
          simp [astmPayloads]
        rw [hpay]
        refine ⟨?_, ?_, h.2.2⟩
        · intro f hf
          rcases List.mem_cons.1 hf with h' | h'
          · exact h' ▸ List.prefix_refl buf
          · exact h.1 f h'
        · exact List.pairwise_cons.2 ⟨fun f hf => h.1 f hf, h.2.1⟩
      · by_cases hEOT : b = EOT
        · have hstep : astmStep buf b = (buf, []) := by
            simp [astmStep, hEOT, EOT, ENQ, STX, ETX, ETB]
          rw [hstep]
          have h := ih buf hbs
          exact ⟨fun f hf => h.1 f (by simpa [astmPayloads] using hf),
            by simpa [astmPayloads] using h.2.1, h.2.2⟩
        · have hstep : astmStep buf b = (buf ++ [b], []) := by
            have h1 : ¬ (b = ETX ∨ b = ETB) := hETXB
            simp [astmStep, hENQ, hb, hEOT, h1]
          rw [hstep]
          have h := ih (buf ++ [b]) hbs
          have hpre : buf <+: buf ++ [b] := List.prefix_append buf [b]
          exact ⟨fun f hf => hpre.trans (h.1 f (by simpa [astmPayloads] using hf)),
            by simpa [astmPayloads] using h.2.1, hpre.trans h.2.2⟩

/-- C2: feeding either framer a byte sequence one byte at a time, or in
arbitrary chunks, produces exactly the same final state and the same
ordered output sequence (completed messages for MLLP, handshake/frame
outputs for ASTM) as feeding the concatenation: the outputs depend only
on the concatenated byte sequence and not on the chunk boundaries. -/
theorem C2_chunk_invariance :
    ∀ (s : MllpState) (t : List Byte) (cs : List (List Byte)),
      mllpFeedChunks s cs = mllpFeed s cs.flatten
      ∧ astmFeedChunks t cs = astmFeed t cs.flatten
      ∧ mllpFeedChunks s (cs.flatten.map fun b => [b]) = mllpFeed s cs.flatten
      ∧ astmFeedChunks t (cs.flatten.map fun b => [b]) = astmFeed t cs.flatten := by
  intro s t cs
  refine ⟨feedChunks_join mllpStep cs s, feedChunks_join astmStep cs t, ?_, ?_⟩
  · rw [mllpFeedChunks, feedChunks_join, singleton_chunks_join, mllpFeed]
  · rw [astmFeedChunks, feedChunks_join, singleton_chunks_join, astmFeed]

/-- C7 counterexample: the ASTM framer of the source has no idle/in-frame
distinction.  Starting from a fresh connection (empty buffer, no `STX`
ever received), the ordinary byte `0x41` is appended to the frame buffer
and appears in the frame emitted by the following `ETX`, contradicting
the claim that bytes arriving while idle are discarded and never appear
in any emitted `CompletedFrame`. -/
theorem C7_idle_discard_counterexample :
    astmFeed [] [0x41, ETX] = ([0x41], [.sendAck, .completedFrame [0x41]])
    ∧ (0x41 : Byte) ∈ [0x41] := by decide

/-- C7 amended: a `CR` or ordinary (non-`ENQ`/`STX`/`ETX`/`ETB`/`EOT`)
byte is appended to the ASTM frame buffer unconditionally, in every
framer state — the source framer keeps no idle/in-frame mode, so no byte
is ever discarded for arriving "while idle". -/
theorem C7_always_append_amended :
    ∀ (buf : List Byte) (b : Byte),
      b ≠ ENQ → b ≠ STX → b ≠ ETX → b ≠ ETB → b ≠ EOT →
      astmStep buf b = (buf ++ [b], []) := by
  intro buf b h1 h2 h3 h4 h5
  have h34 : ¬ (b = ETX ∨ b = ETB) := by tauto
  simp [astmStep, h1, h2, h5, h34]

/-- Concrete instance of the amended C7 statement: a `CR` byte arriving
on a fresh connection is appended to the frame buffer. -/
theorem C7_witness : astmStep [] CR = ([CR], []) :=
  C7_always_append_amended [] CR (by decide) (by decide) (by decide)
    (by decide) (by decide)

/-- C10: on `ETX`/`ETB` the ASTM framer emits the accumulated buffer as a
`CompletedFrame` but does not clear it (only `STX` clears it); hence on
any byte run without an intervening `STX`, every earlier emitted payload
is a prefix of every later one — in particular a second `ETX`/`ETB` with
no `STX` in between re-emits the first frame's entire payload as a
prefix of the second. -/
theorem C10_buffer_not_cleared :
    (∀ buf : List Byte,
        astmStep buf ETX = (buf, [.sendAck, .completedFrame buf])
        ∧ astmStep buf ETB = (buf, [.sendAck, .completedFrame buf]))
    ∧ ∀ (buf xs : List Byte), STX ∉ xs →
        (∀ f ∈ astmPayloads (astmFeed buf xs).2, buf <+: f)
        ∧ List.Pairwise (· <+: ·) (astmPayloads (astmFeed buf xs).2)
        ∧ buf <+: (astmFeed buf xs).1 := by
  constructor
  · intro buf
    constructor <;> simp [astmStep, ENQ, STX, ETX, ETB, EOT]
  · intro buf xs h
    exact astm_no_stx_invariant xs buf h

/-- Concrete instance of C10: two frames completed with no intervening
`STX`; the first payload `[0x41]` is a prefix of the second
`[0x41, 0x42]`. -/
theorem C10_witness :
    List.Pairwise (· <+: ·) (astmPayloads (astmFeed [] [0x41, ETX, 0x42, ETB]).2) :=
  (C10_buffer_not_cleared.2 [] [0x41, ETX, 0x42, ETB] (by decide)).2.1


/-! ### C5: timestamp policy -/

/-- C5: the timestamp parser is total and implements exactly the spec's
case analysis (`hl7DateTimePolicy`, modelled from the spec's words):
trimmed input shorter than 8 characters → current time; at least 14
characters whose first 14 parse under the full layout → that instant
reformatted; otherwise first 8 characters parsing as a date → that date
reformatted; otherwise current time.  In particular `"20260213"` parses
to that calendar date, `"bad"` falls back to the current time, and
`"2026021309300000"` is parsed via the 14-character full layout. -/
theorem C5_parseHL7DateTime_spec :
    (∀ now s : String, parseHL7DateTime now s = hl7DateTimePolicy now s)
    ∧ (∀ now : String, parseHL7DateTime now "20260213" = "2026-02-13T00:00:00Z")
    ∧ (∀ now : String, parseHL7DateTime now "bad" = now)
    ∧ (∀ now : String, parseHL7DateTime now "2026021309300000" = "2026-02-13T09:30:00Z") := by
  refine ⟨?_, fun now => rfl, fun now => rfl, fun now => rfl⟩
  intro now s
  unfold parseHL7DateTime hl7DateTimePolicy
  by_cases h8 : goLength (goTrim s) < 8
  · simp [h8]
  · by_cases h14 : 14 ≤ goLength (goTrim s)
    · simp only [if_neg h8, if_pos h14]
      cases goParseFull (goTake (goTrim s) 14) with
      | none => cases goParseDate (goTake (goTrim s) 8) <;> rfl
      | some t => rfl
    · simp only [if_neg h8, if_neg h14]
      cases goParseDate (goTake (goTrim s) 8) <;> simp



/-! ### C6: no-ACK condition -/

theorem append_ne_empty_left (s r : String) (h : s.data ≠ []) : s ++ r ≠ "" := by
  intro he
  have hd := congrArg String.data he
  rw [String.data_append] at hd
  simp at hd
  exact h hd.1

/-- C6: `generateHL7ACK` returns the empty string (no ACK) exactly when
the first segment starting with `MSH`, split on `|`, has fewer than 10
fields — `findMSHFields` returns that field list, and the empty list
(length 0) when no segment starts with `MSH` at all.  With 10 or more
fields the result is the built ACK text, which is never empty. -/
theorem C6_no_ack_iff_short_msh :
    ∀ now msg : String,
      generateHL7ACK now msg = "" ↔
        (findMSHFields (goSplit (goReplaceCRLF msg) '\r')).length < 10 := by
  intro now msg
  unfold generateHL7ACK
  by_cases h : (findMSHFields (goSplit (goReplaceCRLF msg) '\r')).length < 10
  · simp [h]
  · simp only [if_neg h]
    refine iff_of_false ?_ h
    intro hc
    have hlen := congrArg String.length hc
    simp only [String.length_append] at hlen
    have h3 : ("MSH" : String).length = 3 := rfl
    have h0 : ("" : String).length = 0 := rfl
    rw [h3, h0] at hlen
    omega

/-! ### C9: the bounds-checked field accessors -/

/-- C9 counterexample: for an in-range index the HL7 accessor does not
return the field itself — it returns the field with surrounding
whitespace trimmed (`strings.TrimSpace` is applied inside the
accessor). -/
theorem C9_trim_counterexample :
    (0 : Nat) < ([" x "] : List String).length
    ∧ getHL7Field [" x "] 0 = "x"
    ∧ "x" ≠ " x " := by decide

/-- C9 amended: both field accessors are total; an index at or past the
end yields `""`; an in-range index yields the field itself for the ASTM
accessor and the whitespace-trimmed field for the HL7 accessor. -/
theorem C9_field_accessor_amended :
    ∀ (fields : List String) (index : Nat),
      (fields.length ≤ index →
        getHL7Field fields index = "" ∧ getASTMField fields index = "")
      ∧ (index < fields.length →
        getHL7Field fields index = goTrim (fields.getD index "")
        ∧ getASTMField fields index = fields.getD index "") := by
  intro fields index
  constructor
  · intro h
    constructor <;> simp [getHL7Field, getASTMField, h]
  · intro h
    have h' : ¬ index ≥ fields.length := Nat.not_le.2 h
    constructor <;> simp [getHL7Field, getASTMField, h']

/-- Concrete instance of the amended C9 statement: an index past the end
of the field list yields the empty string from both accessors. -/
theorem C9_witness :
    getHL7Field ["MSH", "123"] 9 = "" ∧ getASTMField ["MSH", "123"] 9 = "" :=
  (C9_field_accessor_amended ["MSH", "123"] 9).1 (by decide)

/-! ### C3: HL7 context persistence -/

/-- C3 counterexample: in the claim's message the OBR segment is
`OBR|1||54321|...`, whose field at split index 2 is empty (`54321` sits
at index 3), and `parseHL7` reads the accession number from index 2 —
so both emitted Observations carry `accession_number = ""`, not
`"54321"`. -/
theorem C3_accession_counterexample :
    ((parseHL7 "2026-02-13T09:30:00Z" c3msg).map fun o => o.accession_number) = ["", ""]
    ∧ ("" : String) ≠ "54321" := by decide

/-- C3 amended: on the claim's message `parseHL7` emits exactly two
Observations, both carrying `patient_id = "12345"`,
`patient_name = "DOE^JOHN"` and `accession_number = ""` (the OBR field
at split index 2 is empty); and in general the parser's context is
changed only by `MSH`/`PID`/`OBR` segments — an `OBX` (or any other)
segment leaves it untouched, and every emitted Observation carries the
current context verbatim. -/
theorem C3_context_persistence_amended :
    (∀ now : String,
      ((parseHL7 now c3msg).map fun o => o.patient_id) = ["12345", "12345"]
      ∧ ((parseHL7 now c3msg).map fun o => o.patient_name) = ["DOE^JOHN", "DOE^JOHN"]
      ∧ ((parseHL7 now c3msg).map fun o => o.accession_number) = ["", ""])
    ∧ (∀ (now : String) (ctx : HL7Ctx) (seg : String),
        (goSplit (goTrim seg) '|').headD "" ∉ (["MSH", "PID", "OBR"] : List String) →
        (hl7Step now ctx seg).1 = ctx)
    ∧ (∀ (now : String) (ctx : HL7Ctx) (seg : String) (o : Observation),
        o ∈ (hl7Step now ctx seg).2 →
        o.patient_id = ctx.patientID ∧ o.patient_name = ctx.patientName
        ∧ o.accession_number = ctx.accessionNumber
        ∧ o.message_id = ctx.messageControlID) := by
  refine ⟨fun now => ⟨rfl, rfl, rfl⟩, ?_, ?_⟩
  · intro now ctx seg hne
    simp only [List.mem_cons, List.mem_singleton, not_or] at hne
    simp only [hl7Step]
    split_ifs with h1 h2 h3 h4 h5
    · rfl
    · exact absurd h2 hne.1
    · exact absurd h3 hne.2.1
    · exact absurd h4 hne.2.2.1
    · rfl
    · rfl
  · intro now ctx seg o hmem
    simp only [hl7Step] at hmem
    split_ifs at hmem <;>
      simp only [List.mem_singleton, List.mem_nil_iff] at hmem
    subst hmem
    exact ⟨rfl, rfl, rfl, rfl⟩

/-- Concrete instance of the amended C3 statement: an `OBX` segment does
not modify the parser context. -/
theorem C3_witness :
    (hl7Step "T" ⟨"12345", "DOE^JOHN", "54321", "123456"⟩ "OBX|2|NM|NA^Sodium||140").1
      = ⟨"12345", "DOE^JOHN", "54321", "123456"⟩ :=
  C3_context_persistence_amended.2.1 "T" ⟨"12345", "DOE^JOHN", "54321", "123456"⟩
    "OBX|2|NM|NA^Sodium||140" (by decide)

/-! ### C4: ASTM context -/

/-- C4 counterexample: in the claim's frame the P record is `P|1||P100`,
whose field at split index 2 is empty (`P100` sits at index 3), and
`parseASTM` reads the patient id from index 2 — so the emitted Result
carries `patient_id = ""`, not `"P100"`. -/
theorem C4_patient_id_counterexample :
    ((parseASTM "2026-02-13T09:30:00Z" c4frame).map fun r => r.patient_id) = [""]
    ∧ ("" : String) ≠ "P100" := by decide

/-- C4 amended: the claim's frame yields exactly one Result, with
`patient_id = ""` (the P record's split-index-2 field is empty),
`sample_id = "S200"` and `test_code = "GLU"`; and in general a `P`
record sets the patient id from its split-index-2 field, an `O` record
sets the sample id from its split-index-2 field, and every `R` record
emits one Result carrying the current patient id and sample id. -/
theorem C4_astm_context_amended :
    (∀ now : String, parseASTM now c4frame =
      [{ protocol := "ASTM", patient_id := "", sample_id := "S200",
         test_code := "GLU", value := "5.6", units := "mmol/L",
         flags := "N", timestamp := now }])
    ∧ (∀ (now : String) (ctx : AstmCtx) (line : String),
        line ≠ "" → (goSplit line '|').headD "" = "P" →
        astmParseStep now ctx line =
          ({ ctx with patientID := getASTMField (goSplit line '|') 2 }, []))
    ∧ (∀ (now : String) (ctx : AstmCtx) (line : String),
        line ≠ "" → (goSplit line '|').headD "" = "O" →
        astmParseStep now ctx line =
          ({ ctx with sampleID := getASTMField (goSplit line '|') 2 }, []))
    ∧ (∀ (now : String) (ctx : AstmCtx) (line : String),
        line ≠ "" → (goSplit line '|').headD "" = "R" →
        astmParseStep now ctx line =
          (ctx, [{ protocol := "ASTM", patient_id := ctx.patientID,
                   sample_id := ctx.sampleID,
                   test_code := getASTMField (goSplit line '|') 2,
                   value := getASTMField (goSplit line '|') 3,
                   units := getASTMField (goSplit line '|') 4,
                   flags := getASTMField (goSplit line '|') 6,
                   timestamp := now }])) := by
  refine ⟨fun now => rfl, ?_, ?_, ?_⟩
  · intro now ctx line hne hp
    simp only [astmParseStep]
    split_ifs with h0
    · exact absurd h0 hne
    · rfl
  · intro now ctx line hne ho
    simp only [astmParseStep]
    split_ifs with h0 h1
    · exact absurd h0 hne
    · exact absurd (h1.symm.trans ho) (by decide)
    · rfl
  · intro now ctx line hne hr
    simp only [astmParseStep]
    split_ifs with h0 h1 h2
    · exact absurd h0 hne
    · exact absurd (h1.symm.trans hr) (by decide)
    · exact absurd (h2.symm.trans hr) (by decide)
    · rfl

/-- Concrete instance of the amended C4 statement: an `O` record sets
the sample id from its split-index-2 field. -/
theorem C4_witness :
    astmParseStep "T" ⟨"", ""⟩ "O|1|S200" = (⟨"", "S200"⟩, []) :=
  C4_astm_context_amended.2.2.1 "T" ⟨"", ""⟩ "O|1|S200" (by decide) (by decide)



/-! ### C8: determinism of parsing -/

theorem parseHL7DateTime_now_indep (now₁ now₂ s : String)
    (h : hl7TimestampFallsBack s = false) :
    parseHL7DateTime now₁ s = parseHL7DateTime now₂ s := by
  unfold parseHL7DateTime
  unfold hl7TimestampFallsBack at h
  by_cases h8 : goLength (goTrim s) < 8
  · rw [if_pos h8] at h
    exact absurd h (by simp)
  · rw [if_neg h8] at h
    by_cases h14 : 14 ≤ goLength (goTrim s)
    · rw [if_pos h14] at h
      simp only [if_neg h8, if_pos h14]
      cases hf : goParseFull (goTake (goTrim s) 14) with
      | some t => rfl
      | none =>
        rw [hf] at h
        cases hd : goParseDate (goTake (goTrim s) 8) with
        | some t => rfl
        | none => rw [hd] at h; exact absurd h (by simp)
    · rw [if_neg h14] at h
      simp only [if_neg h8, if_neg h14]
      cases hd : goParseDate (goTake (goTrim s) 8) with
      | some t => rfl
      | none => rw [hd] at h; exact absurd h (by simp)

theorem hl7Step_fst_now_indep (now₁ now₂ : String) (ctx : HL7Ctx) (seg : String) :
    (hl7Step now₁ ctx seg).1 = (hl7Step now₂ ctx seg).1 := by
  simp only [hl7Step]
  split_ifs <;> rfl

theorem obsEraseTimestamp_mk (a b c d e f g h i j k l m t : String) :
    obsEraseTimestamp ⟨a, b, c, d, e, f, g, h, i, j, k, l, m, t⟩
      = ⟨a, b, c, d, e, f, g, h, i, j, k, l, m, ""⟩ := rfl

theorem hl7Step_erase_now_indep (now₁ now₂ : String) (ctx : HL7Ctx) (seg : String) :
    (hl7Step now₁ ctx seg).2.map obsEraseTimestamp
      = (hl7Step now₂ ctx seg).2.map obsEraseTimestamp := by
  simp only [hl7Step]
  split_ifs with h0 h1 h2 h3 h4
  · rfl
  · rfl
  · rfl
  · rfl
  · simp only [List.map_cons, List.map_nil, obsEraseTimestamp_mk]
  · rfl

theorem hl7Step_now_indep (now₁ now₂ : String) (ctx : HL7Ctx) (seg : String)
    (h : (goSplit (goTrim seg) '|').headD "" = "OBX" →
      hl7TimestampFallsBack (getHL7Field (goSplit (goTrim seg) '|') 14) = false) :
    hl7Step now₁ ctx seg = hl7Step now₂ ctx seg := by
  simp only [hl7Step]
  split_ifs with h0 h1 h2 h3 h4
  · rfl
  · rfl
  · rfl
  · rfl
  · rw [parseHL7DateTime_now_indep now₁ now₂
      (getHL7Field (goSplit (goTrim seg) '|') 14) (h h4)]
  · rfl

theorem hl7Run_now_indep (now₁ now₂ : String) (segs : List String) :
    ∀ ctx : HL7Ctx,
      (hl7Run now₁ ctx segs).1 = (hl7Run now₂ ctx segs).1
      ∧ (hl7Run now₁ ctx segs).2.map obsEraseTimestamp
          = (hl7Run now₂ ctx segs).2.map obsEraseTimestamp := by
  induction segs with
  | nil => exact fun ctx => ⟨rfl, rfl⟩
  | cons seg rest ih =>
    intro ctx
    simp only [hl7Run]
    constructor
    · rw [hl7Step_fst_now_indep now₁ now₂ ctx seg]
      exact (ih _).1
    · rw [List.map_append, List.map_append,
        hl7Step_erase_now_indep now₁ now₂ ctx seg,
        hl7Step_fst_now_indep now₁ now₂ ctx seg, (ih _).2]

theorem hl7Run_now_indep_full (now₁ now₂ : String) (segs : List String)
    (h : ∀ seg ∈ segs, (goSplit (goTrim seg) '|').headD "" = "OBX" →
      hl7TimestampFallsBack (getHL7Field (goSplit (goTrim seg) '|') 14) = false) :
    ∀ ctx : HL7Ctx, hl7Run now₁ ctx segs = hl7Run now₂ ctx segs := by
  induction segs with
  | nil => exact fun ctx => rfl
  | cons seg rest ih =>
    intro ctx
    have hstep := hl7Step_now_indep now₁ now₂ ctx seg (h seg (List.mem_cons_self _ _))
    have hrest := ih fun s hs => h s (List.mem_cons_of_mem _ hs)
    simp only [hl7Run]
    rw [hstep, hrest]

/-- C8 counterexample: `parseHL7` is not a pure function of the message
text.  The message `OBX|1` has no OBX-14 timestamp, so the emitted
Observation's `timestamp` is the wall-clock reading at parse time; two
invocations at different instants yield different Observation
sequences. -/
theorem C8_purity_counterexample :
    parseHL7 "2026-02-13T09:00:00Z" "OBX|1"
      ≠ parseHL7 "2026-02-13T09:00:01Z" "OBX|1" := by decide

/-- C8 amended: re-parsing the same text yields Observation sequences
identical in every field except possibly `timestamp` (parsing is a pure
function of the text and the wall clock); when every OBX segment of the
message carries a parseable OBX-14 timestamp — so the wall-clock
fallback of `parseHL7DateTime` is never taken — re-parsing yields an
identical Observation sequence, timestamps included. -/
theorem C8_determinism_amended :
    (∀ now₁ now₂ msg : String,
      (parseHL7 now₁ msg).map obsEraseTimestamp
        = (parseHL7 now₂ msg).map obsEraseTimestamp)
    ∧ (∀ now₁ now₂ msg : String,
        (∀ seg ∈ goSplit (goReplaceCRLF msg) '\r',
          (goSplit (goTrim seg) '|').headD "" = "OBX" →
          hl7TimestampFallsBack (getHL7Field (goSplit (goTrim seg) '|') 14) = false) →
        parseHL7 now₁ msg = parseHL7 now₂ msg) := by
  constructor
  · intro now₁ now₂ msg
    unfold parseHL7
    exact (hl7Run_now_indep now₁ now₂ _ _).2
  · intro now₁ now₂ msg h
    unfold parseHL7
    rw [hl7Run_now_indep_full now₁ now₂ _ h _]

/-- Concrete instance of the amended C8 statement: a message whose OBX
segment carries the parseable timestamp `20260213` re-parses to an
identical Observation sequence at two different wall-clock instants. -/
theorem C8_witness :
    parseHL7 "2026-02-13T09:00:00Z" "OBX|1|NM|GLU^G||5|u|||||F|||20260213"
      = parseHL7 "2026-02-13T09:00:01Z" "OBX|1|NM|GLU^G||5|u|||||F|||20260213" :=
  C8_determinism_amended.2 "2026-02-13T09:00:00Z" "2026-02-13T09:00:01Z"
    "OBX|1|NM|GLU^G||5|u|||||F|||20260213" (by decide)

/-! ### C1: the generated ACK -/

/-- C1 (code bug): evaluated at a well-formed MSH input with sending app
`A`, sending facility `B`, receiving app `C`, receiving facility `D`,
control ID `X`, the generated "ACK" is
`MSH|^~\&|C|D|A|BACK|<ts>|AL|%!(EXTRA string=|)` + CR + `MSA|AA|X`:
the `fmt.Sprintf` call supplies 15 arguments to 14 `%s` verbs, so the
literal `ACK` is glued onto the swapped sending-facility value (the
MSH field at split index 5 reads `BACK`, not `B`), no field equals
`ACK`, and the stray `%!(EXTRA string=|)` marker is appended.  The MSA
segment, in contrast, is as the claim states (`MSA|AA|X`). -/
theorem C1_generateHL7ACK_sprintf_mismatch :
    generateHL7ACK "20250101120000" "MSH|^~\\&|A|B|C|D|||ORU^R01|X"
      = "MSH|^~\\&|C|D|A|BACK|20250101120000|AL|%!(EXTRA string=|)\rMSA|AA|X"
    ∧ (goSplit ((goSplit (generateHL7ACK "20250101120000"
        "MSH|^~\\&|A|B|C|D|||ORU^R01|X") '\r').headD "") '|').getD 5 ""
      = "BACK"
    ∧ ("BACK" : String) ≠ "B" := by decide


end Gateway
